import Mathlib

/-!
Verification of the `wizadry` repository against its specification.

The development shallowly embeds the Python sources:

* `src/wizardry/ui/backend/main.py`   (namespace `Backend`)
* `src/wizardry/cli/__init__.py`      (namespace `Cli`)
* `src/wizardry/orchestrator.py`      (namespace `Orchestrator`)

Python strings are embedded as `List Char`; Python lists as `List`;
Python dictionaries as insertion-ordered association lists; external
library boundaries (the `json` module, the regex engine, git and the
agent runtime) are embedded as parameters or as outcome flags, exactly
at the call sites where the source consumes them.  Loops are embedded
with an explicit fuel argument equal to an a-priori bound on the number
of iterations, so that every definition is executable by the kernel.
-/

namespace Wizardry

/-! ## Backend: `ConnectionManager` (src/wizardry/ui/backend/main.py, lines 37-60)

Connections are identified by natural numbers; `broken c = true` means
`connection.send_text` raises for connection `c`.  Python's `for` loop over a
list walks an internal index that is incremented after each element is
yielded; `list.remove(c)` deletes the first occurrence of `c`.  Removing the
element that was just yielded therefore shifts the following element into the
slot the iterator has already passed. -/

namespace Backend

/-- One step of `ConnectionManager.broadcast`'s `for` loop, with explicit
fuel.  State: current `active_connections` list `l` and the iterator index
`idx` of the next element to yield.  If the yielded connection's send fails
(`broken c`), the connection is removed from the list (Python
`self.active_connections.remove(connection)`; the membership guard in the
source is always true at that moment) and iteration continues from the
already-incremented index. -/
def broadcastFuel (broken : Nat → Bool) : Nat → List Nat → Nat → List Nat
  | 0, l, _ => l
  | fuel + 1, l, idx =>
    match l.drop idx with
    | [] => l
    | c :: _ =>
      if broken c then broadcastFuel broken fuel (l.erase c) (idx + 1)
      else broadcastFuel broken fuel l (idx + 1)

/-- `ConnectionManager.broadcast`: the final value of `active_connections`
after broadcasting to every connection of `l`.  `l.length` iterations always
suffice because the index grows by one per iteration while the list never
grows. -/
def broadcast (broken : Nat → Bool) (l : List Nat) : List Nat :=
  broadcastFuel broken l.length l 0

/-- Reference recursion capturing the observable effect of the loop on a
duplicate-free list: a failing head is removed and the following element is
skipped (kept unexamined); a succeeding head is kept and iteration continues. -/
def pySweep (broken : Nat → Bool) : List Nat → List Nat
  | [] => []
  | [c] => if broken c then [] else [c]
  | c :: d :: rest =>
    if broken c then d :: pySweep broken rest
    else c :: pySweep broken (d :: rest)

/-- No two adjacent connections in the list both fail. -/
def noTwoAdjacentBroken (broken : Nat → Bool) : List Nat → Bool
  | [] => true
  | [_] => true
  | a :: b :: rest => (!(broken a && broken b)) && noTwoAdjacentBroken broken (b :: rest)

theorem broadcastFuel_stop (broken : Nat → Bool) (fuel : Nat) (l : List Nat) (idx : Nat)
    (h : l.length ≤ idx) : broadcastFuel broken fuel l idx = l := by
  cases fuel with
  | zero => rfl
  | succ fuel =>
    have hdrop : l.drop idx = [] := List.drop_eq_nil_of_le h
    simp [broadcastFuel, hdrop]

theorem broadcastFuel_eq_pySweep (broken : Nat → Bool) :
    ∀ n todo kept fuel, todo.length = n → todo.length ≤ fuel → (kept ++ todo).Nodup →
    broadcastFuel broken fuel (kept ++ todo) kept.length = kept ++ pySweep broken todo := by
  intro n
  induction n using Nat.strong_induction_on with
  | _ n ih =>
    intro todo kept fuel hlen hfuel hnd
    match todo with
    | [] =>
      rw [broadcastFuel_stop broken fuel (kept ++ []) kept.length (by simp)]
      simp [pySweep]
    | [c] =>
      match fuel with
      | 0 => simp at hfuel
      | fuel + 1 =>
        have hc : c ∉ kept := by
          have hdis := (List.nodup_append.mp hnd).2.2
          intro hmem
          exact hdis hmem (by simp)
        by_cases hb : broken c = true
        · have herase : (kept ++ [c]).erase c = kept := by
            rw [List.erase_append_right _ hc, List.erase_cons_head, List.append_nil]
          simp only [broadcastFuel, List.drop_left, hb, if_true, herase]
          rw [broadcastFuel_stop broken fuel kept (kept.length + 1) (by omega)]
          simp [pySweep, hb]
        · simp only [broadcastFuel, List.drop_left, hb, if_false]
          rw [broadcastFuel_stop broken fuel (kept ++ [c]) (kept.length + 1) (by simp)]
          simp [pySweep, hb]
    | c :: d :: rest =>
      match fuel with
      | 0 => simp at hfuel
      | fuel + 1 =>
        have hc : c ∉ kept := by
          have hdis := (List.nodup_append.mp hnd).2.2
          intro hmem
          exact hdis hmem (by simp)
        by_cases hb : broken c = true
        · have herase : (kept ++ c :: d :: rest).erase c = (kept ++ [d]) ++ rest := by
            rw [List.erase_append_right _ hc, List.erase_cons_head]
            simp
          simp only [broadcastFuel, List.drop_left, hb, if_true, herase]
          have hnd' : ((kept ++ [d]) ++ rest).Nodup := by
            have hsub : List.Sublist ((kept ++ [d]) ++ rest) (kept ++ c :: d :: rest) := by
              simp only [List.append_assoc, List.singleton_append]
              exact (List.sublist_cons_self c (d :: rest)).append_left kept
            exact hnd.sublist hsub
          have hkl : kept.length + 1 = (kept ++ [d]).length := by simp
          rw [hkl, ih rest.length (by simp at hlen; omega) rest (kept ++ [d]) fuel rfl
            (by simp at hfuel; omega) hnd']
          simp [pySweep, hb]
        · simp only [broadcastFuel, List.drop_left, hb, if_false]
          have heq : kept ++ c :: d :: rest = (kept ++ [c]) ++ d :: rest := by simp
          have hkl : kept.length + 1 = (kept ++ [c]).length := by simp
          rw [heq, hkl, ih (d :: rest).length (by simp at hlen ⊢; omega) (d :: rest)
            (kept ++ [c]) fuel rfl (by simp at hfuel ⊢; omega) (by rw [← heq]; exact hnd)]
          simp [pySweep, hb]

theorem broadcast_eq_pySweep (broken : Nat → Bool) (l : List Nat) (hnd : l.Nodup) :
    broadcast broken l = pySweep broken l := by
  have := broadcastFuel_eq_pySweep broken l.length l [] l.length rfl le_rfl (by simpa using hnd)
  simpa [broadcast] using this

theorem pySweep_eq_filter (broken : Nat → Bool) :
    ∀ n l, l.length = n → noTwoAdjacentBroken broken l = true →
    pySweep broken l = l.filter (fun c => !broken c) := by
  intro n
  induction n using Nat.strong_induction_on with
  | _ n ih =>
    intro l hlen hadj
    match l with
    | [] => simp [pySweep]
    | [c] =>
      by_cases hb : broken c = true <;> simp [pySweep, hb, List.filter]
    | c :: d :: rest =>
      simp only [noTwoAdjacentBroken, Bool.and_eq_true, Bool.not_eq_true',
        Bool.and_eq_false_iff] at hadj
      obtain ⟨h1, h2⟩ := hadj
      by_cases hb : broken c = true
      · have hd : broken d = false := by
          rcases h1 with h | h
          · exact absurd hb (by simp [h])
          · exact h
        have hrest : noTwoAdjacentBroken broken rest = true := by
          match rest with
          | [] => rfl
          | e :: rest' =>
            simp only [noTwoAdjacentBroken, Bool.and_eq_true] at h2
            exact h2.2
        rw [show pySweep broken (c :: d :: rest) = d :: pySweep broken rest by
          simp [pySweep, hb]]
        rw [ih rest.length (by simp at hlen; omega) rest rfl hrest]
        simp [List.filter, hb, hd]
      · have hb' : broken c = false := by cases h : broken c; rfl; exact absurd h hb
        rw [show pySweep broken (c :: d :: rest) = c :: pySweep broken (d :: rest) by
          simp [pySweep, hb']]
        rw [ih (d :: rest).length (by simp at hlen ⊢; omega) (d :: rest) rfl h2]
        simp [List.filter, hb']

end Backend

/-- Claim C8, counterexample: with two connections `[0, 1]` that both fail to
send, the broadcast loop removes `0`, which shifts `1` into the slot the
iterator has already passed; `1` is never attempted, so after the broadcast a
connection whose send would have failed is still in the active list.  This
refutes the claim's universal reading "for every list of connections and
every send-failure pattern, no failed connection remains". -/
theorem claim_C8_counterexample :
    (fun _ : Nat => true) 1 = true ∧ 1 ∈ Backend.broadcast (fun _ : Nat => true) [0, 1] := by
  decide

/-- Claim C8, amended: `ConnectionManager.broadcast` removes every connection
whose send is attempted and fails, but removing a connection shifts the list
under the iterator so the connection immediately following a removed one is
skipped without a send attempt.  Hence, on a duplicate-free connection list in
which no two consecutive connections both fail, the broadcast leaves exactly
the non-failing connections, in order; a failing connection directly following
another failing one can survive (see the counterexample). -/
theorem claim_C8 (broken : Nat → Bool) (l : List Nat) (hnd : l.Nodup)
    (hadj : Backend.noTwoAdjacentBroken broken l = true) :
    Backend.broadcast broken l = l.filter (fun c => !broken c) := by
  rw [Backend.broadcast_eq_pySweep broken l hnd]
  exact Backend.pySweep_eq_filter broken l.length l rfl hadj

/-- Claim C8, witness: a concrete run of the amended theorem on `[0, 1, 2]`
where only connection `1` fails. -/
theorem claim_C8_witness :
    ([0, 1, 2] : List Nat).Nodup ∧
    Backend.noTwoAdjacentBroken (fun n => n == 1) [0, 1, 2] = true ∧
    Backend.broadcast (fun n => n == 1) [0, 1, 2] = [0, 2] :=
  ⟨by decide, by decide, by
    rw [claim_C8 (fun n => n == 1) [0, 1, 2] (by decide) (by decide)]
    decide⟩

/-! ## Session registry: loading and registration (C6, C10)

A registry file's state is `Option (List Char)`: `none` when the file does not
exist, `some content` for its text.  Python's `json.load` is the external
`json` library; it is embedded as a parameter `parse` returning `some v` for
valid JSON and `none` when it would raise `json.JSONDecodeError`.  Exceptions
are threaded with `Except PyExn`. -/

/-- The Python exception classes that the registry readers interact with. -/
inductive PyExn
  | jsonDecodeError
  | ioError
  | fileNotFoundError
  deriving DecidableEq

/-- Python `json.load(f)`: returns the parsed value or raises
`json.JSONDecodeError`. -/
def jsonLoad {J : Type} (parse : List Char → Option J) (content : List Char) :
    Except PyExn J :=
  match parse content with
  | some v => Except.ok v
  | none => Except.error PyExn.jsonDecodeError

/-- A Python `try`/`except (E₁, E₂, ...)` block returning `fallback` from the
handler. -/
def tryExcept {J : Type} (body : Except PyExn J) (handles : PyExn → Bool)
    (fallback : J) : Except PyExn J :=
  match body with
  | Except.ok v => Except.ok v
  | Except.error e => if handles e then Except.ok fallback else Except.error e

/-- Python `open(f)` followed by `json.load`: raises `FileNotFoundError` when
the file is absent. -/
def openAndLoad {J : Type} (parse : List Char → Option J)
    (file : Option (List Char)) : Except PyExn J :=
  match file with
  | none => Except.error PyExn.fileNotFoundError
  | some content => jsonLoad parse content

namespace Cli

/-- `load_sessions` (src/wizardry/cli/__init__.py, lines 27-37): return `{}`
when the registry file does not exist; otherwise `json.load` it, returning
`{}` on `json.JSONDecodeError` or `IOError`. -/
def load_sessions {J : Type} (emptyDict : J) (parse : List Char → Option J)
    (file : Option (List Char)) : Except PyExn J :=
  match file with
  | none => Except.ok emptyDict
  | some content =>
    tryExcept (jsonLoad parse content)
      (fun e => e == PyExn.jsonDecodeError || e == PyExn.ioError) emptyDict

end Cli

namespace Backend

/-- `load_sessions` (src/wizardry/ui/backend/main.py, lines 125-135): same
structure as the CLI loader. -/
def load_sessions {J : Type} (emptyDict : J) (parse : List Char → Option J)
    (file : Option (List Char)) : Except PyExn J :=
  match file with
  | none => Except.ok emptyDict
  | some content =>
    tryExcept (jsonLoad parse content)
      (fun e => e == PyExn.jsonDecodeError || e == PyExn.ioError) emptyDict

end Backend

namespace Orchestrator

/-- The registry read at the start of `WorkflowOrchestrator._register_session`
(src/wizardry/orchestrator.py, lines 1383-1387): `open` + `json.load` with
`except (FileNotFoundError, json.JSONDecodeError)` yielding `{}`. -/
def register_session_read {J : Type} (emptyDict : J) (parse : List Char → Option J)
    (file : Option (List Char)) : Except PyExn J :=
  tryExcept (openAndLoad parse file)
    (fun e => e == PyExn.fileNotFoundError || e == PyExn.jsonDecodeError) emptyDict

end Orchestrator

/-- Claim C6: for every registry file content that is not valid JSON
(`parse content = none`), all three loaders — the CLI `load_sessions`, the
backend `load_sessions`, and the orchestrator's read inside
`_register_session` — return the empty mapping instead of raising, and a
missing file likewise yields the empty mapping. -/
theorem claim_C6 {J : Type} (emptyDict : J) (parse : List Char → Option J)
    (content : List Char) (hbad : parse content = none) :
    Cli.load_sessions emptyDict parse (some content) = Except.ok emptyDict ∧
    Backend.load_sessions emptyDict parse (some content) = Except.ok emptyDict ∧
    Orchestrator.register_session_read emptyDict parse (some content) = Except.ok emptyDict ∧
    Cli.load_sessions emptyDict parse none = Except.ok emptyDict ∧
    Backend.load_sessions emptyDict parse none = Except.ok emptyDict ∧
    Orchestrator.register_session_read emptyDict parse none = Except.ok emptyDict := by
  refine ⟨?_, ?_, ?_, rfl, rfl, rfl⟩ <;>
    simp [Cli.load_sessions, Backend.load_sessions, Orchestrator.register_session_read,
      tryExcept, jsonLoad, openAndLoad, hbad]

/-- Claim C6, witness: the literal registry text `not json` with a parser that
rejects it. -/
theorem claim_C6_witness :
    (fun _ : List Char => (none : Option Nat)) "not json".toList = none ∧
    Cli.load_sessions 0 (fun _ => none) (some "not json".toList) = Except.ok 0 ∧
    Orchestrator.register_session_read 0 (fun _ : List Char => (none : Option Nat)) none =
      Except.ok 0 :=
  ⟨rfl, (claim_C6 0 (fun _ => none) "not json".toList rfl).1,
    (claim_C6 0 (fun _ => none) "not json".toList rfl).2.2.2.2.2⟩

namespace Orchestrator

/-- The session entry written by `_register_session`
(src/wizardry/orchestrator.py, lines 1389-1398). -/
structure SessionEntry where
  session_id : List Char
  repo_path : List Char
  workspace_repo_path : List Char
  base_branch : List Char
  task : List Char
  status : List Char
  created_at : List Char
  workspace_path : List Char
  deriving DecidableEq

/-- The parsed registry JSON object: an insertion-ordered mapping from session
id to entry, as produced by Python's `json.load`. -/
abbrev Registry := List (List Char × SessionEntry)

/-- Python dictionary assignment `registry[key] = v`: replace the value when
the key is present, append a new binding otherwise. -/
def dictSet (m : Registry) (k : List Char) (v : SessionEntry) : Registry :=
  if m.any (fun p => p.1 == k) then m.map (fun p => if p.1 == k then (k, v) else p)
  else m ++ [(k, v)]

/-- Python dictionary lookup `registry.get(key)`. -/
def dictGet (m : Registry) (k : List Char) : Option SessionEntry :=
  (m.find? (fun p => p.1 == k)).map Prod.snd

/-- `WorkflowOrchestrator._register_session` (src/wizardry/orchestrator.py,
lines 1378-1403): read the registry file tolerantly (`register_session_read`),
bind the workflow id to a fresh entry whose `status` is `"in_progress"`, and
write the whole mapping back.  The state returned is the mapping the rewritten
file parses to; `json.dump`/`json.load` round-tripping is the external `json`
library's contract. -/
def register_session (parse : List Char → Option Registry) (file : Option (List Char))
    (workflow_id original_repo_path repo_path base_branch task created_at
      session_dir : List Char) : Registry :=
  let registry : Registry :=
    match register_session_read [] parse file with
    | Except.ok v => v
    | Except.error _ => []
  dictSet registry workflow_id
    { session_id := workflow_id
      repo_path := original_repo_path
      workspace_repo_path := repo_path
      base_branch := base_branch
      task := task
      status := "in_progress".toList
      created_at := created_at
      workspace_path := session_dir }

theorem dictSet_of_not_mem (m : Registry) (k : List Char) (v : SessionEntry)
    (h : ∀ p ∈ m, p.1 ≠ k) : dictSet m k v = m ++ [(k, v)] := by
  have hany : m.any (fun p => p.1 == k) = false := by
    simp only [List.any_eq_false]
    intro p hp
    simpa using h p hp
  simp [dictSet, hany]

theorem dictGet_append_single_ne (m : Registry) (k k' : List Char) (v : SessionEntry)
    (h : k' ≠ k) : dictGet (m ++ [(k, v)]) k' = dictGet m k' := by
  unfold dictGet
  rw [List.find?_append]
  cases hf : m.find? (fun p => p.1 == k') with
  | some p => simp
  | none =>
    simp only [Option.none_or]
    have : ((k, v).1 == k') = false := by simpa using fun hh => h hh.symm
    simp [List.find?, this]

theorem dictGet_append_single_self (m : Registry) (k : List Char) (v : SessionEntry)
    (h : ∀ p ∈ m, p.1 ≠ k) : dictGet (m ++ [(k, v)]) k = some v := by
  unfold dictGet
  rw [List.find?_append]
  have hf : m.find? (fun p => p.1 == k) = none := by
    simp only [List.find?_eq_none]
    intro p hp
    simpa using h p hp
  simp [hf, List.find?]

end Orchestrator

/-- Claim C10: `_register_session` is frame-preserving on the registry.  For
every prior file content that parses to a JSON object `R` and every workflow
id that is not already a key of `R`, the mapping written back contains every
key of `R` bound to its unchanged prior value, plus the new id bound to an
entry whose `status` is `"in_progress"`. -/
theorem claim_C10 (parse : List Char → Option Orchestrator.Registry)
    (content : List Char) (R : Orchestrator.Registry)
    (hparse : parse content = some R)
    (wid orig repo base task created sdir : List Char)
    (hfresh : ∀ p ∈ R, p.1 ≠ wid) :
    (∀ k, k ≠ wid →
      Orchestrator.dictGet
        (Orchestrator.register_session parse (some content) wid orig repo base task
          created sdir) k = Orchestrator.dictGet R k) ∧
    ∃ e, Orchestrator.dictGet
        (Orchestrator.register_session parse (some content) wid orig repo base task
          created sdir) wid = some e ∧ e.status = "in_progress".toList := by
  have hread : Orchestrator.register_session_read [] parse (some content) = Except.ok R := by
    simp [Orchestrator.register_session_read, tryExcept, openAndLoad, jsonLoad, hparse]
  have hres : Orchestrator.register_session parse (some content) wid orig repo base task
      created sdir = R ++ [(wid,
        { session_id := wid, repo_path := orig, workspace_repo_path := repo,
          base_branch := base, task := task, status := "in_progress".toList,
          created_at := created, workspace_path := sdir })] := by
    unfold Orchestrator.register_session
    rw [hread]
    exact Orchestrator.dictSet_of_not_mem R wid _ hfresh
  constructor
  · intro k hk
    rw [hres]
    exact Orchestrator.dictGet_append_single_ne R wid k _ hk
  · rw [hres]
    exact ⟨_, Orchestrator.dictGet_append_single_self R wid _ hfresh, rfl⟩

/-- Claim C10, witness: a one-entry prior registry and a fresh id. -/
theorem claim_C10_witness :
    (Orchestrator.dictGet
      (Orchestrator.register_session
        (fun _ => some [("a".toList, @Orchestrator.SessionEntry.mk "a".toList [] [] [] [] "failed".toList [] [])])
        (some "x".toList) "b".toList [] [] [] [] [] []) "a".toList =
      Orchestrator.dictGet
        [("a".toList, @Orchestrator.SessionEntry.mk "a".toList [] [] [] [] "failed".toList [] [])] "a".toList) ∧
    ∃ e, Orchestrator.dictGet
        (Orchestrator.register_session
          (fun _ => some [("a".toList, @Orchestrator.SessionEntry.mk "a".toList [] [] [] [] "failed".toList [] [])])
          (some "x".toList) "b".toList [] [] [] [] [] []) "b".toList = some e ∧
      e.status = "in_progress".toList := by
  have h := claim_C10
    (fun _ => some [("a".toList, @Orchestrator.SessionEntry.mk "a".toList [] [] [] [] "failed".toList [] [])])
    "x".toList [("a".toList, @Orchestrator.SessionEntry.mk "a".toList [] [] [] [] "failed".toList [] [])]
    rfl "b".toList [] [] [] [] [] [] (by decide)
  exact ⟨h.1 "a".toList (by decide), h.2⟩

/-! ## Workspace isolation fallback chain (C3)

Embeds `WorkflowOrchestrator._setup_workspace_repo`,
`_fallback_clone_method` and `_setup_local_worktree`
(src/wizardry/orchestrator.py, lines 49-170).  The git commands are external;
their outcomes are the environment flags below. -/

namespace Orchestrator

/-- Outcomes of the external commands used during workspace setup. -/
structure WorkspaceEnv where
  /-- The current working directory starts with the hardcoded Conductor
  workspace path (line 55-57). -/
  inConductor : Bool
  /-- `git show-ref --verify refs/heads/wizardry-<id>` exits zero.  This flag
  only selects between the `-b` and plain forms of `git worktree add`; both
  forms are summarized by `worktreeAddOk`. -/
  branchExists : Bool
  /-- `git worktree add` exits zero (`check=True` raises otherwise). -/
  worktreeAddOk : Bool
  /-- After a zero-exit `worktree add`, the target directory exists on disk
  (the verification at line 98; only the Conductor branch performs it). -/
  worktreeDirExists : Bool
  /-- `git clone` exits zero. -/
  cloneOk : Bool

/-- Which path `_setup_workspace_repo` returns. -/
inductive WorkspacePath
  | workspaceRepo
  | originalRepo
  deriving DecidableEq

/-- The returned path together with whether `_fallback_clone_method` ran. -/
structure WorkspaceResult where
  path : WorkspacePath
  cloneAttempted : Bool
  deriving DecidableEq

/-- `_fallback_clone_method` (lines 116-131): clone the original repository
into `<session_dir>/workspace_repo`; on `CalledProcessError` return the
original path. -/
def fallback_clone_method (env : WorkspaceEnv) : WorkspaceResult :=
  if env.cloneOk then { path := WorkspacePath.workspaceRepo, cloneAttempted := true }
  else { path := WorkspacePath.originalRepo, cloneAttempted := true }

/-- `_setup_local_worktree` (lines 133-170): attempt `git worktree add`; on
`CalledProcessError` return the original repository path directly — no clone
is attempted on this path. -/
def setup_local_worktree (env : WorkspaceEnv) : WorkspaceResult :=
  if env.worktreeAddOk then
    { path := WorkspacePath.workspaceRepo, cloneAttempted := false }
  else { path := WorkspacePath.originalRepo, cloneAttempted := false }

/-- `_setup_workspace_repo` (lines 49-114): inside the Conductor host
environment, attempt a worktree, verify the directory exists, and fall back to
`_fallback_clone_method` on either failure; outside it, delegate to
`_setup_local_worktree`. -/
def setup_workspace_repo (env : WorkspaceEnv) : WorkspaceResult :=
  if env.inConductor then
    if env.worktreeAddOk then
      if env.worktreeDirExists then
        { path := WorkspacePath.workspaceRepo, cloneAttempted := false }
      else fallback_clone_method env
    else fallback_clone_method env
  else setup_local_worktree env

end Orchestrator

/-- Claim C3, counterexample: in an ordinary (non-Conductor) invocation with a
failing `git worktree add` and a `git clone` that would succeed, the system
returns the caller's original repository path without ever attempting a clone
— refuting "whenever worktree creation fails, the system attempts a full
local clone, and only when cloning also fails does it operate directly on the
caller's repository path". -/
theorem claim_C3_counterexample :
    Orchestrator.setup_workspace_repo
        { inConductor := false, branchExists := false, worktreeAddOk := false,
          worktreeDirExists := false, cloneOk := true } =
      { path := Orchestrator.WorkspacePath.originalRepo, cloneAttempted := false } := by
  decide

/-- Claim C3, amended: only in the Conductor-hosted path does worktree failure
(or a missing directory after a zero-exit add) fall back to a clone, with the
original path used exactly when the clone also fails; in the ordinary path a
worktree failure falls back directly to the original path and no clone is ever
attempted.  In every terminal fallback the returned workspace path is the
original repository path (`workspace_repo_path == original_repo_path`). -/
theorem claim_C3 (inC bex wok wde cok : Bool) :
    (inC = true →
      (((wok = false ∨ wde = false) →
        (Orchestrator.setup_workspace_repo ⟨inC, bex, wok, wde, cok⟩).cloneAttempted = true) ∧
      ((Orchestrator.setup_workspace_repo ⟨inC, bex, wok, wde, cok⟩).path =
          Orchestrator.WorkspacePath.originalRepo ↔
        (wok = false ∨ wde = false) ∧ cok = false))) ∧
    (inC = false →
      ((Orchestrator.setup_workspace_repo ⟨inC, bex, wok, wde, cok⟩).cloneAttempted = false ∧
      ((Orchestrator.setup_workspace_repo ⟨inC, bex, wok, wde, cok⟩).path =
          Orchestrator.WorkspacePath.originalRepo ↔ wok = false))) := by
  cases inC <;> cases bex <;> cases wok <;> cases wde <;> cases cok <;> decide

/-- Claim C3, witness: concrete instances of the amended theorem — a Conductor
run whose worktree fails attempts the clone; an ordinary run whose worktree
fails does not. -/
theorem claim_C3_witness :
    (Orchestrator.setup_workspace_repo ⟨true, false, false, false, true⟩).cloneAttempted = true ∧
    (Orchestrator.setup_workspace_repo ⟨false, false, false, false, true⟩).cloneAttempted =
      false :=
  ⟨((claim_C3 true false false false true).1 rfl).1 (Or.inl rfl),
    ((claim_C3 false false false false true).2 rfl).1⟩

/-! ## Python string primitives

Python strings are `List Char`.  The helpers below mirror the Python string
operations the sources use; all are structurally recursive so the kernel can
evaluate them. -/

/-- The apostrophe character (used to build string literals containing it). -/
def apoChar : Char := Char.ofNat 39

/-- Python substring test `needle in hay`. -/
def hasSub (needle : List Char) : List Char → Bool
  | [] => needle.isEmpty
  | c :: rest => needle.isPrefixOf (c :: rest) || hasSub needle rest

/-- Python slice `s[-n:]`: the last `n` characters (the whole string when it
is shorter). -/
def lastN (n : Nat) (s : List Char) : List Char := s.drop (s.length - n)

/-! ## Agent output extraction fallbacks (C4)

Embeds the structured-output extraction at the end of `_run_implementer`
(src/wizardry/orchestrator.py, lines 1556-1573),
`_run_implementer_with_feedback` (lines 1613-1630) and `_run_reviewer`
(lines 1806-1831).  The regex search and `json.loads` are external; their
combined outcome is an `ExtractOutcome`: `noBlock` when
`re.search` finds no fenced block tagged with the role marker, `parseError e`
when a block is found but `json.loads` raises (message text `e`), and
`parsed d` on success. -/

/-- Outcome of regex extraction plus JSON parsing of an agent response. -/
inductive ExtractOutcome (α : Type)
  | noBlock
  | parseError (errText : List Char)
  | parsed (val : α)

namespace Orchestrator

/-- The fields of the implementer's report that the orchestrator consumes. -/
structure ImplReport where
  ready_for_review : Bool
  rationale : List Char
  deriving DecidableEq

/-- The fields of the reviewer's report that the orchestrator consumes. -/
structure ReviewReport where
  approval : Bool
  overall_assessment : List Char
  concerns : List (List Char)
  deriving DecidableEq

/-- Structured-output handling of `_run_implementer` (lines 1556-1573): a
parsed block is returned as-is; a missing block or a parsing exception yields
the optimistic default `ready_for_review = True`. -/
def run_implementer_extract (out : ExtractOutcome ImplReport) : ImplReport :=
  match out with
  | ExtractOutcome.parsed d => d
  | ExtractOutcome.noBlock =>
    { ready_for_review := true, rationale := "Implementation completed".toList }
  | ExtractOutcome.parseError _ =>
    { ready_for_review := true, rationale := "Implementation completed".toList }

/-- Structured-output handling of `_run_implementer_with_feedback`
(lines 1613-1630): a missing block or a parsing exception yields
`ready_for_review = False`. -/
def run_implementer_with_feedback_extract (out : ExtractOutcome ImplReport) : ImplReport :=
  match out with
  | ExtractOutcome.parsed d => d
  | ExtractOutcome.noBlock =>
    { ready_for_review := false, rationale := "Failed to address feedback properly".toList }
  | ExtractOutcome.parseError _ =>
    { ready_for_review := false, rationale := "Failed to address feedback properly".toList }

/-- The marker `I'll` scanned for in the last 100 characters of an incomplete
reviewer response (line 1820). -/
def illMarker : List Char := ['I', apoChar, 'l', 'l']

/-- Structured-output handling of `_run_reviewer` (lines 1806-1831): a missing
block yields `approval = False` with a concern chosen by whether the response
looks cut off mid-tool-use (`"Let me"`/`I'll` within the last 100 characters),
truncated (longer than 1000 characters without a closing fence), or simply
absent; a parsing exception yields `approval = False` with a concern naming
the parse failure. -/
def run_reviewer_extract (out : ExtractOutcome ReviewReport) (full_response : List Char) :
    ReviewReport :=
  match out with
  | ExtractOutcome.parsed d => d
  | ExtractOutcome.noBlock =>
    if hasSub "Let me".toList (lastN 100 full_response) ||
        hasSub illMarker (lastN 100 full_response) then
      { approval := false
        overall_assessment := "Review incomplete - response cut off during tool use".toList
        concerns :=
          ["Reviewer was cut off mid-analysis, likely hit token or tool use limit".toList] }
    else if full_response.length > 1000 && !("```".toList.isSuffixOf full_response) then
      { approval := false
        overall_assessment := "Review incomplete - response was truncated".toList
        concerns := ["Reviewer response was cut off mid-analysis".toList] }
    else
      { approval := false
        overall_assessment := "Review failed - no structured output".toList
        concerns := ["No structured review output provided".toList] }
  | ExtractOutcome.parseError e =>
    { approval := false
      overall_assessment := "Review failed - parsing error: ".toList ++ e
      concerns := ["Failed to parse review output: ".toList ++ e] }

end Orchestrator

/-- Claim C4, counterexample: a feedback-mode implementer response with no
fenced `json:implementation` block defaults to `ready_for_review = false`
("Failed to address feedback properly"), not to `true` as the claim states
for "initial and feedback runs alike". -/
theorem claim_C4_counterexample :
    (Orchestrator.run_implementer_with_feedback_extract ExtractOutcome.noBlock).ready_for_review
      = false := rfl

/-- Claim C4, amended: when no fenced block tagged with the role marker is
found or its content fails to parse as JSON, the initial Implementer run
defaults to `ready_for_review = true` with the generic rationale, the
feedback run defaults to `ready_for_review = false` with rationale
"Failed to address feedback properly", and the Reviewer defaults to
`approval = false` with a non-empty concern naming the missing or truncated
output. -/
theorem claim_C4 (outI outF : ExtractOutcome Orchestrator.ImplReport)
    (outR : ExtractOutcome Orchestrator.ReviewReport) (resp : List Char)
    (hI : ∀ d, outI ≠ ExtractOutcome.parsed d)
    (hF : ∀ d, outF ≠ ExtractOutcome.parsed d)
    (hR : ∀ d, outR ≠ ExtractOutcome.parsed d) :
    (Orchestrator.run_implementer_extract outI).ready_for_review = true ∧
    (Orchestrator.run_implementer_extract outI).rationale =
      "Implementation completed".toList ∧
    (Orchestrator.run_implementer_with_feedback_extract outF).ready_for_review = false ∧
    (Orchestrator.run_implementer_with_feedback_extract outF).rationale =
      "Failed to address feedback properly".toList ∧
    (Orchestrator.run_reviewer_extract outR resp).approval = false ∧
    (Orchestrator.run_reviewer_extract outR resp).concerns ≠ [] := by
  refine ⟨?_, ?_, ?_, ?_, ?_, ?_⟩
  · cases outI with
    | parsed d => exact absurd rfl (hI d)
    | noBlock => rfl
    | parseError e => rfl
  · cases outI with
    | parsed d => exact absurd rfl (hI d)
    | noBlock => rfl
    | parseError e => rfl
  · cases outF with
    | parsed d => exact absurd rfl (hF d)
    | noBlock => rfl
    | parseError e => rfl
  · cases outF with
    | parsed d => exact absurd rfl (hF d)
    | noBlock => rfl
    | parseError e => rfl
  · cases outR with
    | parsed d => exact absurd rfl (hR d)
    | noBlock =>
      simp only [Orchestrator.run_reviewer_extract]
      split
      · rfl
      · split <;> rfl
    | parseError e => rfl
  · cases outR with
    | parsed d => exact absurd rfl (hR d)
    | noBlock =>
      simp only [Orchestrator.run_reviewer_extract]
      split
      · simp
      · split <;> simp
    | parseError e => simp [Orchestrator.run_reviewer_extract]

/-- Claim C4, witness: all three extractions at `noBlock` with an empty
reviewer response. -/
theorem claim_C4_witness :
    (Orchestrator.run_implementer_extract ExtractOutcome.noBlock).ready_for_review = true ∧
    (Orchestrator.run_reviewer_extract ExtractOutcome.noBlock []).approval = false :=
  ⟨(claim_C4 ExtractOutcome.noBlock ExtractOutcome.noBlock ExtractOutcome.noBlock []
      (fun _ h => nomatch h) (fun _ h => nomatch h) (fun _ h => nomatch h)).1,
    (claim_C4 ExtractOutcome.noBlock ExtractOutcome.noBlock ExtractOutcome.noBlock []
      (fun _ h => nomatch h) (fun _ h => nomatch h) (fun _ h => nomatch h)).2.2.2.2.1⟩

/-! ## Large-diff handling (C5)

Embeds the oversized-diff logic of `_run_reviewer`
(src/wizardry/orchestrator.py, lines 1686-1707) and `_run_test_planner`
(lines 1867-1882).  `sessionDir` is the session directory path; `writeOk`
tells whether writing the spill file raises. -/

/-- Decimal digits of a natural number (Python `str(n)` / f-string
interpolation of an `int`). -/
def natCharsAux : Nat → Nat → List Char → List Char
  | 0, _, acc => acc
  | fuel + 1, n, acc =>
    let d := Char.ofNat (48 + n % 10)
    if n < 10 then d :: acc
    else natCharsAux fuel (n / 10) (d :: acc)

/-- Decimal rendering of a natural number. -/
def natChars (n : Nat) : List Char := natCharsAux (n + 1) n []

theorem hasSub_append_left (needle a b : List Char) (h : hasSub needle b = true) :
    hasSub needle (a ++ b) = true := by
  induction a with
  | nil => simpa using h
  | cons c rest ih => simp [hasSub, ih]

theorem isPrefixOf_append_ext (n a b : List Char) (h : n.isPrefixOf a = true) :
    n.isPrefixOf (a ++ b) = true := by
  induction n generalizing a with
  | nil => simp [List.isPrefixOf]
  | cons x xs ih =>
    cases a with
    | nil => simp [List.isPrefixOf] at h
    | cons y ys =>
      simp only [List.isPrefixOf, List.cons_append, Bool.and_eq_true] at h ⊢
      exact ⟨h.1, ih ys h.2⟩

theorem hasSub_nil_needle (l : List Char) : hasSub [] l = true := by
  cases l <;> simp [hasSub, List.isPrefixOf]

theorem hasSub_append_ext (needle a b : List Char) (h : hasSub needle a = true) :
    hasSub needle (a ++ b) = true := by
  induction a with
  | nil =>
    simp only [hasSub, List.isEmpty_iff] at h
    subst h
    exact hasSub_nil_needle _
  | cons c rest ih =>
    simp only [hasSub, Bool.or_eq_true, List.cons_append] at h ⊢
    rcases h with h | h
    · exact Or.inl (isPrefixOf_append_ext needle (c :: rest) b h)
    · exact Or.inr (ih h)

namespace Orchestrator

/-- Observable result of the large-diff handling: the content written to the
spill file (when any) and the `diff_content_for_prompt` value spliced into
the agent prompt. -/
structure DiffHandling where
  fileContent : Option (List Char)
  promptContent : List Char
  deriving DecidableEq

/-- The reviewer's file-pointer prompt text (line 1703). -/
def reviewerPointerText (sessionDir : List Char) (n : Nat) : List Char :=
  "[DIFF TOO LARGE - ".toList ++ natChars n ++
    " chars]\nPlease use the Read tool to view: ".toList ++ sessionDir ++
    "/current_diff.txt".toList

/-- The reviewer's truncation annotation (line 1707). -/
def reviewerTruncText (n : Nat) : List Char :=
  "\n\n... [TRUNCATED - showing first 5KB of ".toList ++ natChars n ++
    " total chars] ...\n\nPlease use git diff command for full changes.".toList

/-- Large-diff handling of `_run_reviewer` (lines 1686-1707): a diff longer
than 10,000 characters is written in full to `current_diff.txt` under the
session directory and the prompt gets a pointer to that file; if the write
raises, the prompt instead gets the first 5,000 characters with a TRUNCATED
marker and the total size; otherwise the diff is inlined. -/
def run_reviewer_diff_handling (sessionDir : List Char) (writeOk : Bool)
    (diff : List Char) : DiffHandling :=
  if diff.length > 10000 then
    if writeOk then
      { fileContent := some diff
        promptContent := reviewerPointerText sessionDir diff.length }
    else
      { fileContent := none
        promptContent := diff.take 5000 ++ reviewerTruncText diff.length }
  else { fileContent := none, promptContent := diff }

/-- The test planner's file-pointer prompt text (line 1879). -/
def testPlannerPointerText (sessionDir : List Char) (n : Nat) : List Char :=
  "[DIFF TOO LARGE - ".toList ++ natChars n ++
    " chars]\nPlease use the Read tool to view: ".toList ++ sessionDir ++
    "/test_planning_diff.txt".toList

/-- The test planner's truncation annotation (line 1882). -/
def testPlannerTruncText (n : Nat) : List Char :=
  "\n\n... [TRUNCATED - showing first 4KB of ".toList ++ natChars n ++
    " total chars] ...".toList

/-- Large-diff handling of `_run_test_planner` (lines 1867-1882): threshold
8,000 characters, spill file `test_planning_diff.txt`, truncation to the
first 4,000 characters. -/
def run_test_planner_diff_handling (sessionDir : List Char) (writeOk : Bool)
    (diff : List Char) : DiffHandling :=
  if diff.length > 8000 then
    if writeOk then
      { fileContent := some diff
        promptContent := testPlannerPointerText sessionDir diff.length }
    else
      { fileContent := none
        promptContent := diff.take 4000 ++ testPlannerTruncText diff.length }
  else { fileContent := none, promptContent := diff }

end Orchestrator

/-- Claim C5: a diff longer than the role threshold (10,000 characters for the
Reviewer, 8,000 for the Test Planner) is written in full to the role's spill
file in the session directory while the prompt carries a pointer text rather
than the diff; at or below the threshold the literal diff appears inline and
no file is written; when writing fails, the prompt carries the first 5,000
(Reviewer) or 4,000 (Test Planner) characters followed by an annotation
containing a TRUNCATED marker and the total size. -/
theorem claim_C5 (sessionDir diff : List Char) :
    (diff.length > 10000 →
      (Orchestrator.run_reviewer_diff_handling sessionDir true diff).fileContent = some diff ∧
      (Orchestrator.run_reviewer_diff_handling sessionDir true diff).promptContent =
        Orchestrator.reviewerPointerText sessionDir diff.length ∧
      (Orchestrator.run_reviewer_diff_handling sessionDir false diff).fileContent = none ∧
      (Orchestrator.run_reviewer_diff_handling sessionDir false diff).promptContent =
        diff.take 5000 ++ Orchestrator.reviewerTruncText diff.length ∧
      hasSub "TRUNCATED".toList
        (Orchestrator.run_reviewer_diff_handling sessionDir false diff).promptContent = true) ∧
    (diff.length ≤ 10000 → ∀ w,
      Orchestrator.run_reviewer_diff_handling sessionDir w diff =
        { fileContent := none, promptContent := diff }) ∧
    (diff.length > 8000 →
      (Orchestrator.run_test_planner_diff_handling sessionDir true diff).fileContent =
        some diff ∧
      (Orchestrator.run_test_planner_diff_handling sessionDir true diff).promptContent =
        Orchestrator.testPlannerPointerText sessionDir diff.length ∧
      (Orchestrator.run_test_planner_diff_handling sessionDir false diff).promptContent =
        diff.take 4000 ++ Orchestrator.testPlannerTruncText diff.length) ∧
    (diff.length ≤ 8000 → ∀ w,
      Orchestrator.run_test_planner_diff_handling sessionDir w diff =
        { fileContent := none, promptContent := diff }) := by
  refine ⟨fun h => ?_, fun h w => ?_, fun h => ?_, fun h w => ?_⟩
  · have e1 : Orchestrator.run_reviewer_diff_handling sessionDir true diff =
        { fileContent := some diff
          promptContent := Orchestrator.reviewerPointerText sessionDir diff.length } := by
      unfold Orchestrator.run_reviewer_diff_handling
      rw [if_pos h]
      rfl
    have e2 : Orchestrator.run_reviewer_diff_handling sessionDir false diff =
        { fileContent := none
          promptContent := diff.take 5000 ++ Orchestrator.reviewerTruncText diff.length } := by
      unfold Orchestrator.run_reviewer_diff_handling
      rw [if_pos h]
      rfl
    refine ⟨by rw [e1], by rw [e1], by rw [e2], by rw [e2], ?_⟩
    rw [e2]
    apply hasSub_append_left
    unfold Orchestrator.reviewerTruncText
    rw [List.append_assoc]
    exact hasSub_append_ext _ _ _ (by decide)
  · have h10 : ¬ (diff.length > 10000) := by omega
    unfold Orchestrator.run_reviewer_diff_handling
    rw [if_neg h10]
  · have e1 : Orchestrator.run_test_planner_diff_handling sessionDir true diff =
        { fileContent := some diff
          promptContent := Orchestrator.testPlannerPointerText sessionDir diff.length } := by
      unfold Orchestrator.run_test_planner_diff_handling
      rw [if_pos h]
      rfl
    have e2 : Orchestrator.run_test_planner_diff_handling sessionDir false diff =
        { fileContent := none
          promptContent := diff.take 4000 ++ Orchestrator.testPlannerTruncText diff.length } := by
      unfold Orchestrator.run_test_planner_diff_handling
      rw [if_pos h]
      rfl
    exact ⟨by rw [e1], by rw [e1], by rw [e2]⟩
  · have h8 : ¬ (diff.length > 8000) := by omega
    unfold Orchestrator.run_test_planner_diff_handling
    rw [if_neg h8]

/-- Claim C5, witness: a 10,001-character diff spills to the file and a
9,999-character diff is inlined. -/
theorem claim_C5_witness :
    (List.replicate 10001 'a').length > 10000 ∧
    (Orchestrator.run_reviewer_diff_handling [] true (List.replicate 10001 'a')).fileContent =
      some (List.replicate 10001 'a') ∧
    (List.replicate 9999 'a').length ≤ 10000 ∧
    (Orchestrator.run_reviewer_diff_handling [] true (List.replicate 9999 'a')).promptContent =
      List.replicate 9999 'a' :=
  ⟨by rw [List.length_replicate]; omega,
    ((claim_C5 [] (List.replicate 10001 'a')).1 (by rw [List.length_replicate]; omega)).1,
    by rw [List.length_replicate]; omega, by
    rw [(claim_C5 [] (List.replicate 9999 'a')).2.1 (by rw [List.length_replicate]; omega) true]⟩

/-! ## The workflow state machine: `run_workflow` (C1, C2)

Embeds `WorkflowOrchestrator.run_workflow` (src/wizardry/orchestrator.py,
lines 2264-2432).  The agent calls are external; their parsed reports (after
the fallbacks of C4) are summarized by: `implReady` — the initial
implementer's `ready_for_review` flag; `fb k` — the `ready_for_review` flag
claimed by the `k`-th implementer-with-feedback run (0-indexed); `ap k` — the
`approval` flag of the `k`-th reviewer run, `ap 0` being the initial review.
The test planner, sync and PR steps have no effect on the success flag
(their exceptions are caught or their failures logged), so they are not
part of the observable result. -/

namespace Orchestrator

/-- Result of one execution of `run_workflow`: either a returned boolean plus
the status string written to the registry by the `finally` block, or an
escaped exception. -/
inductive WorkflowOutcome
  | returns (success : Bool) (finalStatus : List Char)
  | raises (exn : List Char)
  deriving DecidableEq

/-- `run_workflow`'s observable result together with the number of
implementer-with-feedback invocations performed. -/
structure RunResult where
  outcome : WorkflowOutcome
  feedbackCalls : Nat
  deriving DecidableEq

/-- Exit of the `try` body: the only `return` statement inside the `try` is
the early `return False` at line 2280 (initial implementer not ready), where
the local variable `success` has not yet been assigned; every other path ends
the body with `success` bound (the bare `except Exception` at line 2418 also
binds it). -/
inductive BodyExit
  | earlyReturn (value : Bool)
  | completed (success : Bool)
  deriving DecidableEq

/-- The review loop (lines 2287-2381): `max_iterations = 3`, `iteration`
starts at 1; while the last review is not approved and `iteration ≤ 3`, run
the implementer with feedback (counted), break when it does not claim
readiness, otherwise re-run the reviewer and increment the counter.  Returns
the final approval flag and the number of feedback invocations; four
iterations of fuel always suffice since `iteration` grows by one per
iteration. -/
def review_loop (fb ap : Nat → Bool) : Nat → Bool → Nat → Nat → Bool × Nat
  | 0, approved, _, nFb => (approved, nFb)
  | fuel + 1, approved, iteration, nFb =>
    if approved = false ∧ iteration ≤ 3 then
      if fb nFb then review_loop fb ap fuel (ap (nFb + 1)) (iteration + 1) (nFb + 1)
      else (approved, nFb + 1)
    else (approved, nFb)

/-- `run_workflow` (lines 2264-2432).  The `finally` block (lines 2421-2430)
evaluates `if success:`; on the early-return path `success` is an unbound
local, so the `finally` raises `UnboundLocalError`, which replaces the
pending `return` and escapes to the caller with no status written.  On every
completed path the `finally` writes `"completed"` when `success` is true
(line 2426 collapses both of its branches to `"completed"`) and `"failed"`
otherwise. -/
def run_workflow (implReady : Bool) (fb ap : Nat → Bool) : RunResult :=
  let body : BodyExit × Nat :=
    if implReady = false then (BodyExit.earlyReturn false, 0)
    else
      let r := review_loop fb ap 4 (ap 0) 1 0
      (BodyExit.completed r.1, r.2)
  match body with
  | (BodyExit.earlyReturn _, n) =>
    { outcome := WorkflowOutcome.raises "UnboundLocalError".toList, feedbackCalls := n }
  | (BodyExit.completed success, n) =>
    { outcome := WorkflowOutcome.returns success
        (if success then "completed".toList else "failed".toList)
      feedbackCalls := n }

end Orchestrator

/-- Claim C1 (code bug): on the path where the initial Implementer report
does not claim `ready_for_review = true`, the `try` body executes
`return False` while the local `success` is still unbound; the `finally`
block then evaluates `if success:` and raises `UnboundLocalError`, which
escapes `run_workflow` to its caller, and no status is written to the
registry.  This contradicts the specified behavior ("never lets an exception
escape; in all cases the registry status is updated"). -/
theorem claim_C1_bug (fb ap : Nat → Bool) :
    Orchestrator.run_workflow false fb ap =
      { outcome := Orchestrator.WorkflowOutcome.raises "UnboundLocalError".toList
        feedbackCalls := 0 } := rfl

/-- Claim C2: with an always-rejecting Reviewer and feedback runs that always
claim readiness, the review loop performs exactly 3 implementer-with-feedback
invocations (never a 4th), after which `run_workflow` returns `False` and the
registry status is set to `"failed"`. -/
theorem claim_C2 (fb ap : Nat → Bool) (hfb : ∀ n, fb n = true)
    (hap : ∀ n, ap n = false) :
    Orchestrator.run_workflow true fb ap =
      { outcome := Orchestrator.WorkflowOutcome.returns false "failed".toList
        feedbackCalls := 3 } := by
  simp [Orchestrator.run_workflow, Orchestrator.review_loop, hfb, hap]

/-- Claim C2, witness: the constant oracles. -/
theorem claim_C2_witness :
    Orchestrator.run_workflow true (fun _ => true) (fun _ => false) =
      { outcome := Orchestrator.WorkflowOutcome.returns false "failed".toList
        feedbackCalls := 3 } :=
  claim_C2 (fun _ => true) (fun _ => false) (fun _ => rfl) (fun _ => rfl)


/-! ## Session archival: `archive_session` (C7)

Embeds `WorkflowOrchestrator.archive_session`
(src/wizardry/orchestrator.py, lines 2148-2262) from the point where the
session has been found in the registry and step 1 (moving the scratch
directory) has succeeded.  Steps 2 (branch cleanup, lines 2186-2212) and 3
(worktree removal, lines 2214-2250) each run inside their own `try`/`except`,
so their failures are swallowed; step 4 (lines 2252-2255) deletes the
registry entry and rewrites the file. -/

namespace Orchestrator

/-- The session statuses for which branch cleanup runs (line 2186). -/
def terminalStatuses : List (List Char) :=
  ["completed".toList, "failed".toList, "terminated".toList]

/-- Matching of a branch name against the glob `wizardry-*<last6>` built at
line 2189, as performed by the external `git branch --list <pattern>`: the
name starts with `wizardry-`, ends with the six tail characters of the
session id, and is long enough for the two parts not to overlap. -/
def matchesSessionGlob (last6 : List Char) (b : List Char) : Bool :=
  "wizardry-".toList.isPrefixOf b && last6.isSuffixOf b &&
    decide ("wizardry-".toList.length + last6.length ≤ b.length)

/-- Environment of one `archive_session` run: the session's registry record
and the outcomes of the external commands. -/
structure ArchiveEnv where
  status : List Char
  baseBranch : List Char
  /-- All local branch names of the original repository. -/
  allBranches : List (List Char)
  /-- `session.get("repo_path", "")` is non-empty. -/
  repoPathNonEmpty : Bool
  /-- `git branch --list` exits zero. -/
  branchListOk : Bool
  /-- An exception is raised inside step 2 (caught at line 2211). -/
  branchStepExn : Bool
  /-- Per-branch `git branch -D` success. -/
  deleteOk : List Char → Bool
  /-- The registry rewrite of step 4 succeeds. -/
  registryWriteOk : Bool

/-- Observable effects of one `archive_session` run. -/
structure ArchiveEffects where
  deletedBranches : List (List Char)
  worktreeStepReached : Bool
  registryRemoved : Bool
  returned : Bool

/-- Step 2 of `archive_session` (lines 2185-2212): when branch cleanup is
requested, the repo path is known and the status is terminal, list the local
branches matching `wizardry-*<last6>` and force-delete every match that is
not the session's base branch; any exception inside the step is caught. -/
def step2_deleted (cleanupBranch : Bool) (sessionId : List Char) (env : ArchiveEnv) :
    List (List Char) :=
  if cleanupBranch = true ∧ env.repoPathNonEmpty = true ∧ env.status ∈ terminalStatuses then
    if env.branchStepExn = true then []
    else if env.branchListOk = true ∧
        env.allBranches.filter (matchesSessionGlob (lastN 6 sessionId)) ≠ [] then
      ((env.allBranches.filter (matchesSessionGlob (lastN 6 sessionId))).filter
        (fun b => b ≠ env.baseBranch)).filter env.deleteOk
    else []
  else []

/-- `archive_session` from step 2 on: step 3 is always reached because step
2's `except` swallows its failures, and step 4 is always reached because step
3's nested `try`/`except` blocks swallow theirs; step 4 removes the entry and
rewrites the registry file, and the function returns `True` exactly when that
write does not raise. -/
def archive_session (cleanupBranch : Bool) (sessionId : List Char) (env : ArchiveEnv) :
    ArchiveEffects :=
  let deleted := step2_deleted cleanupBranch sessionId env
  if env.registryWriteOk = true then
    { deletedBranches := deleted, worktreeStepReached := true
      registryRemoved := true, returned := true }
  else
    { deletedBranches := deleted, worktreeStepReached := true
      registryRemoved := false, returned := false }

theorem step2_deleted_subset (cleanupBranch : Bool) (sessionId : List Char)
    (env : ArchiveEnv) (b : List Char) (hb : b ∈ step2_deleted cleanupBranch sessionId env) :
    matchesSessionGlob (lastN 6 sessionId) b = true ∧ b ≠ env.baseBranch := by
  unfold step2_deleted at hb
  split at hb
  · split at hb
    · simp at hb
    · split at hb
      · have hb1 := List.mem_of_mem_filter hb
        have hglob := List.of_mem_filter (List.mem_of_mem_filter hb1)
        have hne := List.of_mem_filter hb1
        refine ⟨hglob, ?_⟩
        simpa using hne
      · simp at hb
  · simp at hb

theorem matchesSessionGlob_decompose (last6 b : List Char)
    (h : matchesSessionGlob last6 b = true) :
    ∃ mid, b = "wizardry-".toList ++ mid ++ last6 := by
  unfold matchesSessionGlob at h
  simp only [Bool.and_eq_true, decide_eq_true_eq] at h
  obtain ⟨⟨hp, hs⟩, hlen⟩ := h
  have hpre : "wizardry-".toList <+: b := by
    exact (List.isPrefixOf_iff_prefix).mp hp
  have hsuf : last6 <:+ b := (List.isSuffixOf_iff_suffix).mp hs
  obtain ⟨s, hsb⟩ := hsuf
  have hpre2 : "wizardry-".toList <+: s := by
    apply List.prefix_of_prefix_length_le hpre
    · rw [← hsb]
      exact List.prefix_append s last6
    · have : s.length + last6.length = b.length := by
        rw [← hsb]; simp
      omega
  obtain ⟨mid, hmid⟩ := hpre2
  exact ⟨mid, by rw [← hsb, ← hmid, List.append_assoc]⟩

end Orchestrator

/-- Claim C7: for a session in a terminal status whose registry rewrite
succeeds, `archive_session` deletes only local branches of the form
`wizardry-<anything><last 6 characters of the session id>` and never the
session's base branch; the worktree-removal step and the registry-removal
step run regardless of any failure inside the branch-cleanup step (whose
exceptions are caught), and the session's entry is removed from the registry
even when no branch matched. -/
theorem claim_C7 (sessionId : List Char) (env : Orchestrator.ArchiveEnv)
    (hterm : env.status ∈ Orchestrator.terminalStatuses)
    (hw : env.registryWriteOk = true) :
    (∀ b ∈ (Orchestrator.archive_session true sessionId env).deletedBranches,
      (∃ mid, b = "wizardry-".toList ++ mid ++ lastN 6 sessionId) ∧ b ≠ env.baseBranch) ∧
    (Orchestrator.archive_session true sessionId env).worktreeStepReached = true ∧
    (Orchestrator.archive_session true sessionId env).registryRemoved = true ∧
    (Orchestrator.archive_session true sessionId env).returned = true := by
  have harch : Orchestrator.archive_session true sessionId env =
      { deletedBranches := Orchestrator.step2_deleted true sessionId env
        worktreeStepReached := true, registryRemoved := true, returned := true } := by
    unfold Orchestrator.archive_session
    rw [if_pos hw]
  refine ⟨?_, by rw [harch], by rw [harch], by rw [harch]⟩
  intro b hb
  rw [harch] at hb
  have h := Orchestrator.step2_deleted_subset true sessionId env b hb
  exact ⟨Orchestrator.matchesSessionGlob_decompose _ b h.1, h.2⟩

/-- Claim C7, witness: a concrete archive of a completed session whose id
ends in `abc123`, with branches `main` (the base) and
`wizardry-workflow-1-abc123` present. -/
theorem claim_C7_witness :
    (("completed".toList ∈ Orchestrator.terminalStatuses) ∧
      (Orchestrator.archive_session true "workflow-1-abc123".toList
        { status := "completed".toList, baseBranch := "main".toList
          allBranches := ["main".toList, "wizardry-workflow-1-abc123".toList]
          repoPathNonEmpty := true, branchListOk := true, branchStepExn := false
          deleteOk := fun _ => true, registryWriteOk := true }).registryRemoved = true) ∧
    (∀ b ∈ (Orchestrator.archive_session true "workflow-1-abc123".toList
        { status := "completed".toList, baseBranch := "main".toList
          allBranches := ["main".toList, "wizardry-workflow-1-abc123".toList]
          repoPathNonEmpty := true, branchListOk := true, branchStepExn := false
          deleteOk := fun _ => true, registryWriteOk := true }).deletedBranches,
      b ≠ "main".toList) := by
  have h := claim_C7 "workflow-1-abc123".toList
    { status := "completed".toList, baseBranch := "main".toList
      allBranches := ["main".toList, "wizardry-workflow-1-abc123".toList]
      repoPathNonEmpty := true, branchListOk := true, branchStepExn := false
      deleteOk := fun _ => true, registryWriteOk := true }
    (by decide) rfl
  exact ⟨⟨by decide, h.2.2.1⟩, fun b hb => (h.1 b hb).2⟩


/-! ## Python string splitting, stripping and searching (used by C9)

`pySplit` embeds Python's `str.split(sep)` for a non-empty separator; the
fuel argument (one unit per consumed character) makes it structurally
recursive, and `s.length` fuel always suffices. -/

/-- Prepend a character to the first piece of a split result. -/
def consHead (c : Char) : List (List Char) → List (List Char)
  | [] => [[c]]
  | s :: ss => (c :: s) :: ss

/-- Python `str.split(sep)` with explicit fuel. -/
def pySplitAux (sep : List Char) : Nat → List Char → List (List Char)
  | _, [] => [[]]
  | 0, s => [s]
  | fuel + 1, c :: rest =>
    if sep.isPrefixOf (c :: rest) then
      [] :: pySplitAux sep fuel ((c :: rest).drop sep.length)
    else consHead c (pySplitAux sep fuel rest)

/-- Python `s.split(sep)` for non-empty `sep`. -/
def pySplit (sep s : List Char) : List (List Char) := pySplitAux sep s.length s

theorem pySplitAux_fuel_irrel (sep : List Char) (hsep : 1 ≤ sep.length) :
    ∀ n s f₁ f₂, s.length = n → s.length ≤ f₁ → s.length ≤ f₂ →
    pySplitAux sep f₁ s = pySplitAux sep f₂ s := by
  intro n
  induction n using Nat.strong_induction_on with
  | _ n ih =>
    intro s f₁ f₂ hlen h1 h2
    match s with
    | [] => cases f₁ <;> cases f₂ <;> rfl
    | c :: rest =>
      match f₁, f₂ with
      | 0, _ => simp at h1
      | _, 0 => simp at h2
      | g₁ + 1, g₂ + 1 =>
        simp only [pySplitAux]
        by_cases hpre : sep.isPrefixOf (c :: rest) = true
        · rw [if_pos hpre, if_pos hpre]
          have hlt : ((c :: rest).drop sep.length).length < n := by
            simp only [List.length_drop, List.length_cons] at hlen ⊢
            omega
          rw [ih ((c :: rest).drop sep.length).length hlt _ g₁ g₂ rfl
            (by simp at h1 ⊢; omega) (by simp at h2 ⊢; omega)]
        · rw [if_neg hpre, if_neg hpre]
          have hlt : rest.length < n := by simp at hlen; omega
          rw [ih rest.length hlt rest g₁ g₂ rfl (by simp at h1; omega)
            (by simp at h2; omega)]

theorem pySplit_nil (sep : List Char) : pySplit sep [] = [[]] := rfl

theorem pySplit_cons_match (sep : List Char) (hsep : 1 ≤ sep.length) (c : Char)
    (rest : List Char) (h : sep.isPrefixOf (c :: rest) = true) :
    pySplit sep (c :: rest) = [] :: pySplit sep ((c :: rest).drop sep.length) := by
  show pySplitAux sep (c :: rest).length (c :: rest) = _
  match hfl : (c :: rest).length with
  | 0 => simp at hfl
  | fuel + 1 =>
    simp only [pySplitAux, if_pos h]
    rw [pySplitAux_fuel_irrel sep hsep ((c :: rest).drop sep.length).length _ fuel
      ((c :: rest).drop sep.length).length rfl (by simp [← hfl] at *; omega) le_rfl]
    rfl

theorem pySplit_cons_nomatch (sep : List Char) (hsep : 1 ≤ sep.length) (c : Char)
    (rest : List Char) (h : ¬ sep.isPrefixOf (c :: rest) = true) :
    pySplit sep (c :: rest) = consHead c (pySplit sep rest) := by
  show pySplitAux sep (c :: rest).length (c :: rest) = _
  match hfl : (c :: rest).length with
  | 0 => simp at hfl
  | fuel + 1 =>
    simp only [pySplitAux, if_neg h]
    rw [pySplitAux_fuel_irrel sep hsep rest.length rest fuel rest.length rfl
      (by simp at hfl; omega) le_rfl]
    rfl


theorem isPrefixOf_refl_char (l : List Char) : l.isPrefixOf l = true := by
  induction l with
  | nil => rfl
  | cons c rest ih => simp [List.isPrefixOf, ih]

theorem isPrefixOf_long_append (sep x r : List Char) (h : sep.length ≤ x.length) :
    sep.isPrefixOf (x ++ r) = sep.isPrefixOf x := by
  induction sep generalizing x with
  | nil => simp [List.isPrefixOf]
  | cons a s ih =>
    cases x with
    | nil => simp at h
    | cons c x' =>
      simp only [List.cons_append, List.isPrefixOf, List.append_eq]
      rw [ih x' (by simp at h; omega)]

/-- Splitting a string that starts with a separator-free chunk `b` followed by
the separator: the chunk becomes the first piece. -/
theorem pySplit_chunk (sep : List Char) (hsep : 1 ≤ sep.length) :
    ∀ b r, (∀ i, i < b.length → sep.isPrefixOf ((b ++ sep ++ r).drop i) = false) →
    pySplit sep (b ++ sep ++ r) = b :: pySplit sep r := by
  intro b
  induction b with
  | nil =>
    intro r _
    match hs : sep, hsep with
    | c :: s', _ =>
      have hm : (c :: s').isPrefixOf (([] : List Char) ++ (c :: s') ++ r) = true := by
        simp only [List.nil_append]
        rw [List.append_assoc] at *
        exact isPrefixOf_append_ext _ _ _ (isPrefixOf_refl_char (c :: s'))
      simp only [List.nil_append] at hm ⊢
      rw [List.append_assoc] at *
      rw [show c :: s' ++ r = c :: (s' ++ r) from rfl] at hm ⊢
      rw [pySplit_cons_match (c :: s') (by simp) c (s' ++ r) hm]
      congr 1
      congr 1
      show List.drop (s'.length + 1) (c :: (s' ++ r)) = r
      simp [List.drop_left]
  | cons c b' ih =>
    intro r hearly
    have h0 := hearly 0 (by simp)
    simp only [List.drop_zero, List.cons_append] at h0
    rw [List.cons_append, List.cons_append,
      pySplit_cons_nomatch sep hsep c (b' ++ sep ++ r) (by rw [h0]; simp),
      ih r (fun i hi => by
        have := hearly (i + 1) (by simp; omega)
        simpa using this)]
    rfl

theorem pySplit_single_prepend (d : Char) (x : List Char) (hx : d ∉ x) (y : List Char) :
    pySplit [d] (x ++ d :: y) = x :: pySplit [d] y := by
  induction x with
  | nil =>
    simp only [List.nil_append]
    rw [pySplit_cons_match [d] (by simp) d y (by simp [List.isPrefixOf])]
    rfl
  | cons c x' ih =>
    have hcd : (d == c) = false := by
      simp only [beq_eq_false_iff_ne, ne_eq]
      intro h
      exact hx (by simp [h])
    rw [List.cons_append, pySplit_cons_nomatch [d] (by simp) c (x' ++ d :: y)
      (by simp [List.isPrefixOf, hcd]), ih (fun h => hx (by simp [h]))]
    rfl

theorem pySplit_single_none (d : Char) (x : List Char) (hx : d ∉ x) :
    pySplit [d] x = [x] := by
  induction x with
  | nil => rfl
  | cons c x' ih =>
    have hcd : (d == c) = false := by
      simp only [beq_eq_false_iff_ne, ne_eq]
      intro h
      exact hx (by simp [h])
    rw [pySplit_cons_nomatch [d] (by simp) c x' (by simp [List.isPrefixOf, hcd]),
      ih (fun h => hx (by simp [h]))]
    rfl

/-! Python whitespace stripping. -/

/-- Python `str.strip` whitespace characters (the six ASCII ones). -/
def pyIsSpace (c : Char) : Bool :=
  c = ' ' || c = Char.ofNat 9 || c = Char.ofNat 10 || c = Char.ofNat 13 ||
    c = Char.ofNat 11 || c = Char.ofNat 12

/-- Python `str.lstrip()`. -/
def pyLStrip (s : List Char) : List Char := s.dropWhile pyIsSpace

/-- Python `str.rstrip()`. -/
def pyRStrip (s : List Char) : List Char := (s.reverse.dropWhile pyIsSpace).reverse

/-- Python `str.strip()`. -/
def pyStrip (s : List Char) : List Char := pyLStrip (pyRStrip s)

theorem mem_dropWhile_of_not (p : Char → Bool) (c : Char) :
    ∀ l : List Char, c ∈ l → p c = false → c ∈ l.dropWhile p := by
  intro l
  induction l with
  | nil => intro h; cases h
  | cons a rest ih =>
    intro hmem hpc
    by_cases hpa : p a = true
    · rw [List.dropWhile_cons_of_pos hpa]
      rcases List.mem_cons.mp hmem with h | h
      · subst h; rw [hpa] at hpc; cases hpc
      · exact ih h hpc
    · rw [List.dropWhile_cons_of_neg hpa]
      exact hmem

theorem pyStrip_ne_nil_of_mem (s : List Char) (c : Char) (hc : c ∈ s)
    (hns : pyIsSpace c = false) : pyStrip s ≠ [] := by
  have h1 : c ∈ pyRStrip s := by
    unfold pyRStrip
    rw [List.mem_reverse]
    exact mem_dropWhile_of_not pyIsSpace c s.reverse (by simpa using hc) hns
  have h2 : c ∈ pyStrip s :=
    mem_dropWhile_of_not pyIsSpace c (pyRStrip s) h1 hns
  intro hnil
  rw [hnil] at h2
  cases h2

theorem dropWhile_idem (p : Char → Bool) (l : List Char) :
    (l.dropWhile p).dropWhile p = l.dropWhile p := by
  induction l with
  | nil => rfl
  | cons a rest ih =>
    by_cases hpa : p a = true
    · rw [List.dropWhile_cons_of_pos hpa, ih]
    · rw [List.dropWhile_cons_of_neg hpa, List.dropWhile_cons_of_neg hpa]

theorem pyRStrip_idem (s : List Char) : pyRStrip (pyRStrip s) = pyRStrip s := by
  unfold pyRStrip
  rw [List.reverse_reverse, dropWhile_idem]

theorem pyStrip_pyRStrip (s : List Char) : pyStrip (pyRStrip s) = pyStrip s := by
  unfold pyStrip
  rw [pyRStrip_idem]

theorem pyRStrip_append (a b : List Char) (hb : pyRStrip b ≠ []) :
    pyRStrip (a ++ b) = a ++ pyRStrip b := by
  unfold pyRStrip at *
  rw [List.reverse_append, List.dropWhile_append]
  have hne : (b.reverse.dropWhile pyIsSpace).isEmpty = false := by
    cases h : b.reverse.dropWhile pyIsSpace with
    | nil => rw [h] at hb; simp at hb
    | cons x xs => rfl
  rw [hne]
  simp

theorem not_mem_pyRStrip (s : List Char) (c : Char) (hc : c ∉ s) : c ∉ pyRStrip s := by
  intro hmem
  apply hc
  unfold pyRStrip at hmem
  rw [List.mem_reverse] at hmem
  have := (List.dropWhile_sublist (l := s.reverse) (p := pyIsSpace)).mem hmem
  simpa using this


/-! ## Transcript store round trip (C9)

`WorkflowOrchestrator._log_conversation` (src/wizardry/orchestrator.py,
lines 1405-1419) appends one markdown block per logged exchange;
`parse_transcript_entries` (src/wizardry/ui/backend/main.py, lines 187-243)
splits the file on the literal separator and re-extracts timestamp, task and
response. -/

/-- The newline character. -/
def nlChar : Char := Char.ofNat 10

/-- The entry separator written by the logger and split on by the parser:
`---` followed by a blank line. -/
def sepStr : List Char := "---\n\n".toList

namespace Orchestrator

/-- One logged exchange: the timestamp interpolated into the header, the
prompt (`message`) and the streamed response. -/
structure LogEntry where
  ts : List Char
  message : List Char
  response : List Char

/-- Python `str.title()` applied to the agent name in the block header. -/
def pyTitleAux : Bool → List Char → List Char
  | _, [] => []
  | prevAlpha, c :: rest =>
    (if c.isAlpha then (if prevAlpha then c.toLower else c.toUpper) else c) ::
      pyTitleAux c.isAlpha rest

/-- Python `str.title()`. -/
def pyTitle (s : List Char) : List Char := pyTitleAux false s

/-- The text written for one entry before the separator (lines 1413-1415):
a `## [<ts>] <Agent Title>` header, a `**Task**:` line carrying the message,
and a `**Response**:` line followed by the response text. -/
def blockBody (agent : List Char) (e : LogEntry) : List Char :=
  "## [".toList ++ e.ts ++ "] ".toList ++ pyTitle agent ++
    "\n\n**Task**: ".toList ++ e.message ++ "\n\n**Response**:\n".toList ++
    e.response ++ "\n\n".toList

/-- One full appended block of `_log_conversation` (lines 1412-1416). -/
def log_conversation_block (agent : List Char) (e : LogEntry) : List Char :=
  blockBody agent e ++ sepStr

/-- The transcript file content after appending `entries` in order for one
agent. -/
def transcriptFile (agent : List Char) (entries : List LogEntry) : List Char :=
  (entries.map (log_conversation_block agent)).flatten

end Orchestrator

/-- The block contains no occurrence of the separator before its own
terminating separator (checked over the block body extended by the dash
prefix of the next possible occurrence). -/
def noEarlySep (b : List Char) : Bool :=
  (List.range b.length).all (fun i => !(sepStr.isPrefixOf ((b ++ sepStr).drop i)))

/-- The entries for which the transcript round trip is exact: non-empty
single-line timestamp without `]`, single-line agent title, single-line task
and response, a response that is non-blank after stripping, and no stray
separator occurrence inside the logged block. -/
@[reducible]
def goodLogEntry (agent : List Char) (e : Orchestrator.LogEntry) : Prop :=
  e.ts ≠ [] ∧ nlChar ∉ e.ts ∧ (']' ∉ e.ts) ∧
  nlChar ∉ Orchestrator.pyTitle agent ∧
  nlChar ∉ e.message ∧ nlChar ∉ e.response ∧
  pyStrip e.response ≠ [] ∧
  noEarlySep (Orchestrator.blockBody agent e) = true

namespace Backend

/-- One entry of the unified conversation (model `ConversationEntry`,
src/wizardry/ui/backend/main.py, lines 97-101). -/
structure ConversationEntry where
  timestamp : List Char
  agent : List Char
  task : List Char
  response : List Char
  deriving DecidableEq

/-- The `**Task**:` marker scanned for (line 221). -/
def taskMarker : List Char := "**Task**:".toList

/-- The `**Response**:` marker scanned for (line 223). -/
def respMarker : List Char := "**Response**:".toList

/-- The scan of lines 217-225: remember the last `**Task**:` line seen,
stop at the first `**Response**:` line.  Python's `-1` sentinels are
`Option`. -/
def findMarkers : List (List Char) → Nat → Option Nat → Option Nat × Option Nat
  | [], _, t => (t, none)
  | l :: rest, i, t =>
    if taskMarker.isPrefixOf l then findMarkers rest (i + 1) (some i)
    else if respMarker.isPrefixOf l then (t, some i)
    else findMarkers rest (i + 1) t

/-- Python `str.find(ch)`: index of the first occurrence or `-1`. -/
def pyFindChar (ch : Char) : List Char → Int
  | [] => -1
  | c :: rest =>
    if c = ch then 0
    else
      let r := pyFindChar ch rest
      if r = -1 then -1 else r + 1

/-- The timestamp extraction of lines 208-214: when the first line starts
with `## [`, slice between the first `[` and the first `]`. -/
def sectionTimestamp (lines : List (List Char)) : List Char :=
  match lines with
  | [] => []
  | line0 :: _ =>
    if "## [".toList.isPrefixOf line0 then
      let start : Int := pyFindChar '[' line0 + 1
      let stop : Int := pyFindChar ']' line0
      if 0 < start ∧ start < stop then (line0.drop start.toNat).take (stop - start).toNat
      else []
    else []

/-- Parsing of one (stripped, non-empty) section (lines 197-241): extract the
timestamp from the bracketed header substring, locate the `**Task**:` and
`**Response**:` marker lines, slice out the text after each, and keep the
entry only when the timestamp is non-empty and at least one of task/response
is. -/
def parseSection (agent sec : List Char) : Option ConversationEntry :=
  let lines := pySplit [nlChar] sec
  let timestamp : List Char := sectionTimestamp lines
  match findMarkers lines 0 none with
  | (some ts, some rs) =>
    if ts < rs then
      let task := pyStrip (List.intercalate [nlChar] ((lines.drop (ts + 1)).take (rs - (ts + 1))))
      let response := pyStrip (List.intercalate [nlChar] (lines.drop (rs + 1)))
      if timestamp ≠ [] ∧ (task ≠ [] ∨ response ≠ []) then
        some { timestamp := timestamp, agent := agent, task := task, response := response }
      else none
    else
      let task := pyStrip (List.intercalate [nlChar] (lines.drop (ts + 1)))
      if timestamp ≠ [] ∧ task ≠ [] then
        some { timestamp := timestamp, agent := agent, task := task, response := [] }
      else none
  | (some ts, none) =>
    let task := pyStrip (List.intercalate [nlChar] (lines.drop (ts + 1)))
    if timestamp ≠ [] ∧ task ≠ [] then
      some { timestamp := timestamp, agent := agent, task := task, response := [] }
    else none
  | (none, _) => none

/-- `parse_transcript_entries` (lines 187-243): empty or all-whitespace
content yields no entries; otherwise split on the separator, strip each
section, skip blank ones and parse the rest in order. -/
def parse_transcript_entries (content agent : List Char) : List ConversationEntry :=
  if pyStrip content = [] then []
  else
    (pySplit sepStr content).filterMap (fun sec =>
      if pyStrip sec = [] then none else parseSection agent (pyStrip sec))

end Backend


theorem isPrefixOf_self_append (p x : List Char) : p.isPrefixOf (p ++ x) = true :=
  isPrefixOf_append_ext p p x (isPrefixOf_refl_char p)

theorem pyFindChar_append (ch : Char) (x y : List Char) (hx : ch ∉ x) :
    Backend.pyFindChar ch (x ++ ch :: y) = (x.length : Int) := by
  induction x with
  | nil =>
    show Backend.pyFindChar ch (ch :: y) = 0
    unfold Backend.pyFindChar
    rw [if_pos rfl]
  | cons c x' ih =>
    have hcch : ¬ c = ch := by
      intro h
      exact hx (by simp [h])
    have hih := ih (fun h => hx (by simp [h]))
    show Backend.pyFindChar ch (c :: (x' ++ ch :: y)) = _
    unfold Backend.pyFindChar
    rw [if_neg hcch]
    simp only [hih]
    rw [if_neg (by omega)]
    simp only [List.length_cons]
    push_cast
    omega

theorem dropWhile_eq_nil_of_all (p : Char → Bool) (w : List Char)
    (hw : ∀ c ∈ w, p c = true) : w.dropWhile p = [] := by
  induction w with
  | nil => rfl
  | cons c rest ih =>
    rw [List.dropWhile_cons_of_pos (hw c (by simp))]
    exact ih (fun c hc => hw c (by simp [hc]))

theorem pyRStrip_ws_append (x w : List Char) (hw : ∀ c ∈ w, pyIsSpace c = true) :
    pyRStrip (x ++ w) = pyRStrip x := by
  unfold pyRStrip
  rw [List.reverse_append, List.dropWhile_append]
  have hnil : w.reverse.dropWhile pyIsSpace = [] :=
    dropWhile_eq_nil_of_all pyIsSpace w.reverse (fun c hc => hw c (by simpa using hc))
  rw [hnil]
  simp

theorem pyRStrip_ne_nil_of_pyStrip_ne_nil (s : List Char) (h : pyStrip s ≠ []) :
    pyRStrip s ≠ [] := by
  intro hnil
  apply h
  unfold pyStrip
  rw [hnil]
  rfl


theorem pySplit_nl_lines (l1 l3 l5 l6 : List Char)
    (h1 : nlChar ∉ l1) (h3 : nlChar ∉ l3) (h5 : nlChar ∉ l5) (h6 : nlChar ∉ l6) :
    pySplit [nlChar]
      (l1 ++ nlChar :: nlChar :: (l3 ++ nlChar :: nlChar :: (l5 ++ nlChar :: l6))) =
      [l1, [], l3, [], l5, l6] := by
  have hm : ∀ z : List Char, ([nlChar]).isPrefixOf (nlChar :: z) = true := by
    intro z
    simp [List.isPrefixOf]
  rw [pySplit_single_prepend nlChar l1 h1]
  rw [pySplit_cons_match [nlChar] (by simp) nlChar
    (l3 ++ nlChar :: nlChar :: (l5 ++ nlChar :: l6)) (hm _)]
  rw [show List.drop ([nlChar]).length
      (nlChar :: (l3 ++ nlChar :: nlChar :: (l5 ++ nlChar :: l6))) =
      l3 ++ nlChar :: nlChar :: (l5 ++ nlChar :: l6) from rfl]
  rw [pySplit_single_prepend nlChar l3 h3]
  rw [pySplit_cons_match [nlChar] (by simp) nlChar (l5 ++ nlChar :: l6) (hm _)]
  rw [show List.drop ([nlChar]).length (nlChar :: (l5 ++ nlChar :: l6)) =
      l5 ++ nlChar :: l6 from rfl]
  rw [pySplit_single_prepend nlChar l5 h5]
  rw [pySplit_single_none nlChar l6 h6]

namespace Backend

theorem findMarkers_cons (l : List Char) (rest : List (List Char)) (i : Nat)
    (t : Option Nat) :
    findMarkers (l :: rest) i t =
      if taskMarker.isPrefixOf l then findMarkers rest (i + 1) (some i)
      else if respMarker.isPrefixOf l then (t, some i)
      else findMarkers rest (i + 1) t := by
  simp only [findMarkers]

theorem findMarkers_step_skip (l : List Char) (rest : List (List Char)) (i : Nat)
    (t : Option Nat) (h1 : taskMarker.isPrefixOf l = false)
    (h2 : respMarker.isPrefixOf l = false) :
    findMarkers (l :: rest) i t = findMarkers rest (i + 1) t := by
  rw [findMarkers_cons, h1, h2, if_neg (by simp), if_neg (by simp)]

theorem findMarkers_step_task (l : List Char) (rest : List (List Char)) (i : Nat)
    (t : Option Nat) (h1 : taskMarker.isPrefixOf l = true) :
    findMarkers (l :: rest) i t = findMarkers rest (i + 1) (some i) := by
  rw [findMarkers_cons, h1, if_pos rfl]

theorem findMarkers_step_resp (l : List Char) (rest : List (List Char)) (i : Nat)
    (t : Option Nat) (h1 : taskMarker.isPrefixOf l = false)
    (h2 : respMarker.isPrefixOf l = true) :
    findMarkers (l :: rest) i t = (t, some i) := by
  rw [findMarkers_cons, h1, h2, if_neg (by simp), if_pos rfl]

theorem findMarkers_block (t1 msg l6 : List Char) :
    findMarkers [('#' :: t1), [], ("**Task**: ".toList ++ msg), [], respMarker, l6]
      0 none = (some 2, some 4) := by
  have hhash : ∀ m : List Char, ('*' :: m).isPrefixOf ('#' :: t1) = false := by
    intro m
    simp [List.isPrefixOf]
  have ht1 : taskMarker.isPrefixOf ('#' :: t1) = false := by
    rw [show taskMarker = '*' :: "*Task**:".toList from by decide]
    exact hhash _
  have hr1 : respMarker.isPrefixOf ('#' :: t1) = false := by
    rw [show respMarker = '*' :: "*Response**:".toList from by decide]
    exact hhash _
  have htnil : taskMarker.isPrefixOf ([] : List Char) = false := by decide
  have hrnil : respMarker.isPrefixOf ([] : List Char) = false := by decide
  have htask : taskMarker.isPrefixOf ("**Task**: ".toList ++ msg) = true := by
    rw [show "**Task**: ".toList ++ msg = taskMarker ++ (' ' :: msg) from by
      rw [show "**Task**: ".toList = taskMarker ++ [' '] from by decide]
      simp]
    exact isPrefixOf_self_append _ _
  rw [findMarkers_step_skip _ _ _ _ ht1 hr1,
    findMarkers_step_skip _ _ _ _ htnil hrnil,
    findMarkers_step_task _ _ _ _ htask,
    findMarkers_step_skip _ _ _ _ htnil hrnil,
    findMarkers_step_resp _ _ _ _ (by decide) (by decide)]

theorem sectionTimestamp_cons (line0 : List Char) (rest : List (List Char)) :
    sectionTimestamp (line0 :: rest) =
      if "## [".toList.isPrefixOf line0 then
        (if 0 < pyFindChar '[' line0 + 1 ∧ pyFindChar '[' line0 + 1 < pyFindChar ']' line0 then
          (line0.drop (pyFindChar '[' line0 + 1).toNat).take
            (pyFindChar ']' line0 - (pyFindChar '[' line0 + 1)).toNat
        else [])
      else [] := by
  simp only [sectionTimestamp]

theorem sectionTimestamp_header (ts tail' : List Char) (rest : List (List Char))
    (hts : ts ≠ []) (hbr : ']' ∉ ts) :
    sectionTimestamp (("## [".toList ++ ts ++ "] ".toList ++ tail') :: rest) = ts := by
  have hpre : "## [".toList.isPrefixOf ("## [".toList ++ ts ++ "] ".toList ++ tail') = true := by
    rw [show "## [".toList ++ ts ++ "] ".toList ++ tail' =
      "## [".toList ++ (ts ++ "] ".toList ++ tail') from by simp]
    exact isPrefixOf_self_append _ _
  have hopen : pyFindChar '[' ("## [".toList ++ ts ++ "] ".toList ++ tail') = 3 := by
    rw [show "## [".toList ++ ts ++ "] ".toList ++ tail' =
      "## ".toList ++ '[' :: (ts ++ "] ".toList ++ tail') from by
        rw [show "## [".toList = "## ".toList ++ ['['] from by decide]
        simp]
    rw [pyFindChar_append '[' "## ".toList _ (by decide)]
    rfl
  have hclose : pyFindChar ']' ("## [".toList ++ ts ++ "] ".toList ++ tail') =
      ((4 + ts.length : Nat) : Int) := by
    rw [show "## [".toList ++ ts ++ "] ".toList ++ tail' =
      ("## [".toList ++ ts) ++ ']' :: (' ' :: tail') from by
        rw [show "] ".toList = ']' :: [' '] from by decide]
        simp]
    rw [pyFindChar_append ']' ("## [".toList ++ ts) _ (by
      simp only [List.mem_append]
      rintro (h | h)
      · revert h; decide
      · exact hbr h)]
    simp
    omega
  have htspos : 0 < ts.length := List.length_pos.mpr hts
  rw [sectionTimestamp_cons, hpre, if_pos rfl, hopen, hclose,
    if_pos (by constructor <;> omega)]
  have h1 : ((3 : Int) + 1).toNat = "## [".toList.length := by decide
  have h2 : ((((4 + ts.length : Nat) : Int)) - (3 + 1)).toNat = ts.length := by omega
  rw [h1, h2]
  rw [show "## [".toList ++ ts ++ "] ".toList ++ tail' =
    "## [".toList ++ (ts ++ ("] ".toList ++ tail')) from by simp]
  rw [List.drop_left, List.take_left]

end Backend


theorem intercalate_single (sep x : List Char) : List.intercalate sep [x] = x := by
  simp [List.intercalate]

theorem pyLStrip_cons_not_space (c : Char) (t : List Char) (hc : pyIsSpace c = false) :
    pyLStrip (c :: t) = c :: t :=
  List.dropWhile_cons_of_neg (by simp [hc])

theorem pyStrip_blockBody (agent : List Char) (e : Orchestrator.LogEntry)
    (hresp : pyStrip e.response ≠ []) :
    pyStrip (Orchestrator.blockBody agent e) =
      ("## [".toList ++ e.ts ++ "] ".toList ++ Orchestrator.pyTitle agent) ++
        nlChar :: nlChar :: (("**Task**: ".toList ++ e.message) ++
          nlChar :: nlChar :: (Backend.respMarker ++ nlChar :: pyRStrip e.response)) := by
  have hA : Orchestrator.blockBody agent e =
      ("## [".toList ++ e.ts ++ "] ".toList ++ Orchestrator.pyTitle agent ++
        "\n\n**Task**: ".toList ++ e.message ++ "\n\n**Response**:\n".toList) ++
        (e.response ++ "\n\n".toList) := by
    unfold Orchestrator.blockBody
    simp
  have hwb : pyRStrip (e.response ++ "\n\n".toList) = pyRStrip e.response :=
    pyRStrip_ws_append e.response "\n\n".toList (by decide)
  have hrne : pyRStrip (e.response ++ "\n\n".toList) ≠ [] := by
    rw [hwb]
    exact pyRStrip_ne_nil_of_pyStrip_ne_nil _ hresp
  unfold pyStrip
  rw [hA, pyRStrip_append _ _ hrne, hwb]
  have hx : ("## [".toList ++ e.ts ++ "] ".toList ++ Orchestrator.pyTitle agent ++
      "\n\n**Task**: ".toList ++ e.message ++ "\n\n**Response**:\n".toList) ++
      pyRStrip e.response =
      '#' :: (("# [".toList ++ e.ts ++ "] ".toList ++ Orchestrator.pyTitle agent ++
        "\n\n**Task**: ".toList ++ e.message ++ "\n\n**Response**:\n".toList) ++
        pyRStrip e.response) := by
    rw [show ("## [".toList : List Char) = '#' :: "# [".toList from by decide]
    simp
  rw [hx, pyLStrip_cons_not_space '#' _ (by decide), ← hx]
  rw [show ("\n\n**Task**: ".toList : List Char) =
    nlChar :: nlChar :: "**Task**: ".toList from by decide]
  rw [show ("\n\n**Response**:\n".toList : List Char) =
    nlChar :: nlChar :: (Backend.respMarker ++ [nlChar]) from by decide]
  simp

theorem parseSection_block (agent : List Char) (e : Orchestrator.LogEntry)
    (hts : e.ts ≠ []) (htsnl : nlChar ∉ e.ts) (hbr : ']' ∉ e.ts)
    (htitle : nlChar ∉ Orchestrator.pyTitle agent)
    (hmsg : nlChar ∉ e.message) (hrespnl : nlChar ∉ e.response)
    (hresp : pyStrip e.response ≠ []) :
    Backend.parseSection agent (pyStrip (Orchestrator.blockBody agent e)) =
      some { timestamp := e.ts, agent := agent, task := [],
             response := pyStrip e.response } := by
  have h1 : nlChar ∉ ("## [".toList ++ e.ts ++ "] ".toList ++ Orchestrator.pyTitle agent) := by
    simp only [List.mem_append]
    rintro (((h | h) | h) | h)
    · revert h; decide
    · exact htsnl h
    · revert h; decide
    · exact htitle h
  have h3 : nlChar ∉ ("**Task**: ".toList ++ e.message) := by
    simp only [List.mem_append]
    rintro (h | h)
    · revert h; decide
    · exact hmsg h
  have h6 : nlChar ∉ pyRStrip e.response := not_mem_pyRStrip _ _ hrespnl
  have hlines : pySplit [nlChar]
      (("## [".toList ++ e.ts ++ "] ".toList ++ Orchestrator.pyTitle agent) ++
        nlChar :: nlChar :: (("**Task**: ".toList ++ e.message) ++
          nlChar :: nlChar :: (Backend.respMarker ++ nlChar :: pyRStrip e.response))) =
      [("## [".toList ++ e.ts ++ "] ".toList ++ Orchestrator.pyTitle agent), [],
        ("**Task**: ".toList ++ e.message), [], Backend.respMarker, pyRStrip e.response] :=
    pySplit_nl_lines _ _ _ _ h1 h3 (by decide) h6
  have hmark : Backend.findMarkers
      [("## [".toList ++ e.ts ++ "] ".toList ++ Orchestrator.pyTitle agent), [],
        ("**Task**: ".toList ++ e.message), [], Backend.respMarker, pyRStrip e.response]
      0 none = (some 2, some 4) := by
    have hl1 : ("## [".toList ++ e.ts ++ "] ".toList ++ Orchestrator.pyTitle agent) =
        '#' :: ("# [".toList ++ e.ts ++ "] ".toList ++ Orchestrator.pyTitle agent) := by
      rw [show ("## [".toList : List Char) = '#' :: "# [".toList from by decide]
      simp
    rw [hl1]
    exact Backend.findMarkers_block _ _ _
  have htime : Backend.sectionTimestamp
      [("## [".toList ++ e.ts ++ "] ".toList ++ Orchestrator.pyTitle agent), [],
        ("**Task**: ".toList ++ e.message), [], Backend.respMarker, pyRStrip e.response] =
      e.ts :=
    Backend.sectionTimestamp_header e.ts (Orchestrator.pyTitle agent) _ hts hbr
  rw [pyStrip_blockBody agent e hresp]
  simp only [Backend.parseSection]
  rw [hlines, hmark, htime]
  simp only [List.drop_succ_cons, List.drop_zero, List.take_succ_cons, List.take_zero]
  rw [if_pos (by norm_num)]
  rw [intercalate_single, intercalate_single, pyStrip_pyRStrip]
  rw [if_pos ⟨hts, Or.inr hresp⟩]
  rfl


theorem transcriptFile_split (agent : List Char) (entries : List Orchestrator.LogEntry)
    (hclean : ∀ e ∈ entries, noEarlySep (Orchestrator.blockBody agent e) = true) :
    pySplit sepStr (Orchestrator.transcriptFile agent entries) =
      entries.map (Orchestrator.blockBody agent) ++ [[]] := by
  induction entries with
  | nil => rfl
  | cons e es ih =>
    have hfile : Orchestrator.transcriptFile agent (e :: es) =
        Orchestrator.blockBody agent e ++ (sepStr ++ Orchestrator.transcriptFile agent es) := by
      unfold Orchestrator.transcriptFile Orchestrator.log_conversation_block
      simp
    rw [hfile, ← List.append_assoc]
    rw [pySplit_chunk sepStr (by decide) (Orchestrator.blockBody agent e)
      (Orchestrator.transcriptFile agent es) (fun i hi => by
        have hne := hclean e (by simp)
        unfold noEarlySep at hne
        rw [List.all_eq_true] at hne
        have h := hne i (List.mem_range.mpr hi)
        simp only [Bool.not_eq_true', decide_eq_true_eq] at h
        rw [List.drop_append_of_le_length (by simp; omega)]
        rw [isPrefixOf_long_append _ _ _ (by
          simp only [List.length_drop, List.length_append]
          omega)]
        exact h)]
    rw [ih (fun e' he' => hclean e' (by simp [he']))]
    simp


theorem hash_mem_blockBody (agent : List Char) (e : Orchestrator.LogEntry) :
    '#' ∈ Orchestrator.blockBody agent e := by
  have hh : '#' ∈ ("## [".toList : List Char) := by decide
  simp [Orchestrator.blockBody, List.mem_append, hh]

theorem filterMap_blocks (agent : List Char) (entries : List Orchestrator.LogEntry)
    (hgood : ∀ e ∈ entries, goodLogEntry agent e) :
    (entries.map (Orchestrator.blockBody agent)).filterMap
      (fun sec => if pyStrip sec = [] then none else Backend.parseSection agent (pyStrip sec)) =
      entries.map (fun e =>
        { timestamp := e.ts, agent := agent, task := []
          response := pyStrip e.response : Backend.ConversationEntry }) := by
  induction entries with
  | nil => rfl
  | cons e es ih =>
    obtain ⟨h1, h2, h3, h4, h5, h6, h7, _⟩ := hgood e (by simp)
    have hsec : pyStrip (Orchestrator.blockBody agent e) ≠ [] :=
      pyStrip_ne_nil_of_mem _ '#' (hash_mem_blockBody agent e) (by decide)
    simp only [List.map_cons, List.filterMap_cons, if_neg hsec]
    rw [parseSection_block agent e h1 h2 h3 h4 h5 h6 h7]
    rw [ih (fun e' he' => hgood e' (by simp [he']))]

/-- Claim C9, counterexample: logging a single entry whose response text is
empty and whose task is a single line, then parsing the file, yields zero
conversation entries rather than one.  (The parser reads the task only from
the lines after the `**Task**:` marker line, so a single-line task parses as
empty; with an empty response the entry fails the "timestamp and at least one
of task/response" retention test and is dropped.)  This refutes the claim for
arbitrary entry sequences. -/
theorem claim_C9_counterexample :
    Backend.parse_transcript_entries
      (Orchestrator.transcriptFile "implementer".toList
        [{ ts := "2024".toList, message := "hello".toList, response := [] }])
      "implementer".toList = [] ∧
    ([{ ts := "2024".toList, message := "hello".toList, response := [] }] :
      List Orchestrator.LogEntry).length = 1 := by
  constructor
  · decide
  · rfl

/-- Claim C9, amended: appending any sequence of N well-formed entries for
one agent via the transcript logger and then parsing that file with the
backend's transcript parser yields exactly N conversation entries in the
original append order, where an entry is well-formed when its timestamp is
non-empty, single-line and free of `]`, the agent title and the task and
response texts are single-line, the response is non-blank after whitespace
stripping, and the logged block does not contain the entry separator
`---` + blank line anywhere before its terminator.  Each parsed entry carries
the logged timestamp and the whitespace-stripped response text; the parsed
task field is empty, because the parser collects the task only from the lines
between the `**Task**:` marker line and the `**Response**:` marker line and
the logger writes the task on the marker line itself. -/
theorem claim_C9 (agent : List Char) (entries : List Orchestrator.LogEntry)
    (hgood : ∀ e ∈ entries, goodLogEntry agent e) :
    Backend.parse_transcript_entries (Orchestrator.transcriptFile agent entries) agent =
      entries.map (fun e =>
        { timestamp := e.ts, agent := agent, task := []
          response := pyStrip e.response : Backend.ConversationEntry }) := by
  match entries with
  | [] => rfl
  | e0 :: es =>
    have hsplit := transcriptFile_split agent (e0 :: es)
      (fun e he => (hgood e he).2.2.2.2.2.2.2)
    have hne : pyStrip (Orchestrator.transcriptFile agent (e0 :: es)) ≠ [] := by
      apply pyStrip_ne_nil_of_mem _ '#' _ (by decide)
      have hh := hash_mem_blockBody agent e0
      simp only [Orchestrator.transcriptFile, Orchestrator.log_conversation_block,
        List.map_cons, List.flatten_cons, List.mem_append]
      exact Or.inl (Or.inl hh)
    unfold Backend.parse_transcript_entries
    rw [if_neg hne, hsplit, List.filterMap_append]
    rw [filterMap_blocks agent (e0 :: es) hgood]
    rw [show List.filterMap
      (fun sec => if pyStrip sec = [] then none else Backend.parseSection agent (pyStrip sec))
      [[]] = [] from rfl]
    simp

/-- Claim C9, witness: three concrete well-formed entries round-trip to
exactly three conversation entries in order. -/
theorem claim_C9_witness :
    (∀ e ∈ ([{ ts := "2024-01-01T10:00:00".toList, message := "task one".toList,
               response := "response one".toList },
             { ts := "2024-01-01T10:05:00".toList, message := "task two".toList,
               response := "response two".toList },
             { ts := "2024-01-01T10:09:00".toList, message := "task three".toList,
               response := "response three".toList }] : List Orchestrator.LogEntry),
      goodLogEntry "implementer".toList e) ∧
    Backend.parse_transcript_entries
      (Orchestrator.transcriptFile "implementer".toList
        [{ ts := "2024-01-01T10:00:00".toList, message := "task one".toList,
           response := "response one".toList },
         { ts := "2024-01-01T10:05:00".toList, message := "task two".toList,
           response := "response two".toList },
         { ts := "2024-01-01T10:09:00".toList, message := "task three".toList,
           response := "response three".toList }]) "implementer".toList =
      [{ timestamp := "2024-01-01T10:00:00".toList, agent := "implementer".toList,
         task := [], response := "response one".toList },
       { timestamp := "2024-01-01T10:05:00".toList, agent := "implementer".toList,
         task := [], response := "response two".toList },
       { timestamp := "2024-01-01T10:09:00".toList, agent := "implementer".toList,
         task := [], response := "response three".toList }] := by
  constructor
  · decide
  · rw [claim_C9 "implementer".toList _ (by decide)]
    decide

end Wizardry